import Mathlib

/-!
Verification of the incremental synchronization and promotion-detection
pipeline of the tracked-roster server (src/server/server.js, with the
legacy variant in src/unnamed/part_001 and the browser client in
src/unnamed/part_000).

The JavaScript source is shallowly embedded: JS objects become
structures with `Option` fields for possibly-absent properties, JS
string-keyed objects become insertion-ordered association lists,
thrown exceptions become `Except`/explicit result constructors, and the
remote Riot API is an oracle function supplied as a parameter.
-/

namespace Lol

/-- `String.prototype.toUpperCase` restricted to the ASCII range used by
tier/division strings (`String(x || "").toUpperCase()` in the source). -/
def jsUpper (s : String) : String := String.mk (s.data.map Char.toUpper)

/-- `String.prototype.toLowerCase` restricted to the ASCII range used by
platform codes and champion names. -/
def jsLower (s : String) : String := String.mk (s.data.map Char.toLower)

/-- `String.prototype.trim()`: strip leading and trailing whitespace. -/
def jsTrim (s : String) : String :=
  String.mk (((s.data.dropWhile Char.isWhitespace).reverse.dropWhile
    Char.isWhitespace).reverse)

/-- A rank snapshot as produced by `fetchSoloQRank` in src/server/server.js:
either `{ unranked: true }` or `{ tier, division, lp, wins, losses, winrate }`.
Absent JS properties read as `undefined`; `String(undefined || "")` is `""`,
which the defaults model. -/
structure Rank where
  unranked : Bool := false
  tier : String := ""
  division : String := ""
  lp : Int := 0
  wins : Int := 0
  losses : Int := 0
deriving Repr, DecidableEq

/-- `tierOrder[t] ?? 0` from `rankValue` in src/server/server.js (lines
263-274). -/
def tierOrder (t : String) : Nat :=
  if t = "IRON" then 1
  else if t = "BRONZE" then 2
  else if t = "SILVER" then 3
  else if t = "GOLD" then 4
  else if t = "PLATINUM" then 5
  else if t = "EMERALD" then 6
  else if t = "DIAMOND" then 7
  else if t = "MASTER" then 8
  else if t = "GRANDMASTER" then 9
  else if t = "CHALLENGER" then 10
  else 0

/-- `divOrder[d] ?? 0` from `rankValue` in src/server/server.js (line 275). -/
def divOrder (d : String) : Nat :=
  if d = "IV" then 1
  else if d = "III" then 2
  else if d = "II" then 3
  else if d = "I" then 4
  else 0

/-- `rankValue(oldRank, newRank)` from src/server/server.js lines 259-294:
the promotion comparison used by the live refresh loop. Despite its name it
returns the boolean "newRank is strictly better than oldRank". The `Option`
models a possibly `null`/`undefined` argument (`!oldRank`). -/
def rankValue (oldRank newRank : Option Rank) : Bool :=
  match oldRank with
  | none => false
  | some o =>
    if o.unranked then false
    else
      match newRank with
      | none => false
      | some n =>
        if n.unranked then false
        else
          let oldTier := tierOrder (jsUpper o.tier)
          let newTier := tierOrder (jsUpper n.tier)
          if newTier ≠ oldTier then decide (newTier > oldTier)
          else
            let apex := decide (newTier ≥ tierOrder "MASTER")
            let oldDiv := if apex then 0 else divOrder (jsUpper o.division)
            let newDiv := if apex then 0 else divOrder (jsUpper n.division)
            if newDiv ≠ oldDiv then decide (newDiv > oldDiv)
            else false

/-- `isPromotion(prevRank, newRank)` from src/server/server.js lines 349-351. -/
def isPromotion (prevRank newRank : Option Rank) : Bool :=
  rankValue prevRank newRank

/-- `rankValue(rank)` from the legacy server variant
src/unnamed/part_001 lines 202-237: a numeric score
`tIdx * 1000 + divScore * 10 + Math.min(lp, 99) / 100`, computed here in ℚ
(the JS doubles involved are ordered identically, since the integer part and
the capped-LP fraction are both order-preservingly represented). -/
def rankValueLegacy (rank : Option Rank) : ℚ :=
  match rank with
  | none => -1
  | some r =>
    if r.unranked then -1
    else
      let t := jsUpper r.tier
      let d := jsUpper r.division
      let tIdx : Int :=
        if t = "IRON" then 0
        else if t = "BRONZE" then 1
        else if t = "SILVER" then 2
        else if t = "GOLD" then 3
        else if t = "PLATINUM" then 4
        else if t = "EMERALD" then 5
        else if t = "DIAMOND" then 6
        else if t = "MASTER" then 7
        else if t = "GRANDMASTER" then 8
        else if t = "CHALLENGER" then 9
        else -1
      if tIdx = -1 then -1
      else
        let isApex := t = "MASTER" ∨ t = "GRANDMASTER" ∨ t = "CHALLENGER"
        let dIdx : Int :=
          if isApex then 3
          else if d = "IV" then 0
          else if d = "III" then 1
          else if d = "II" then 2
          else if d = "I" then 3
          else -1
        let divScore : Int := if dIdx = -1 then 0 else dIdx
        let lp : Int := r.lp
        (tIdx * 1000 + divScore * 10 : ℚ) + (min lp 99 : ℚ) / 100

/-- `isPromotion(prevRank, newRank)` from src/unnamed/part_001 lines 282-284:
`rankValue(newRank) > rankValue(prevRank)`. -/
def isPromotionLegacy (prevRank newRank : Option Rank) : Bool :=
  rankValueLegacy newRank > rankValueLegacy prevRank

/-- `regionalForPlatform(platform)` from src/server/server.js lines 143-148. -/
def regionalForPlatform (platform : String) : String :=
  let p := jsLower platform
  if p = "euw1" ∨ p = "eun1" ∨ p = "tr1" ∨ p = "ru" then "europe"
  else if p = "na1" ∨ p = "br1" ∨ p = "la1" ∨ p = "la2" ∨ p = "oc1" then "americas"
  else "asia"

/-- One entry of `m.info.participants` in a match-v5 record, restricted to the
properties the server reads. `championId` is `none` when the property is
absent or not a finite number (`Number.isFinite(champId)` fails). -/
structure Participant where
  puuid : String
  championId : Option Int := none
  win : Bool := false
  kills : Int := 0
  deaths : Int := 0
  assists : Int := 0
deriving Repr, DecidableEq

/-- `m.info` of a match-v5 record. `gameDuration` is `none` when absent or
not a finite number. -/
structure MatchInfo where
  gameDuration : Option Int := none
  participants : List Participant := []
  gameEndTimestamp : Option Int := none
  queueId : Option Int := none
deriving Repr, DecidableEq

/-- A match-v5 record (`m`), restricted to `m.info`. -/
structure MatchDetail where
  info : MatchInfo
deriving Repr, DecidableEq

/-- `alistGetV m k` — reading property `k` of a JS object modelled as an
insertion-ordered association list (`undefined` becomes `none`). -/
def alistGetV {α : Type} (m : List (String × α)) (k : String) : Option α :=
  (m.find? (fun kv => kv.1 == k)).map (·.2)

/-- `alistSetV m k v` — writing property `k` of a JS object: overwrites in
place when the key exists, otherwise appends. -/
def alistSetV {α : Type} (m : List (String × α)) (k : String) (v : α) :
    List (String × α) :=
  match m with
  | [] => [(k, v)]
  | (k', v') :: rest =>
    if k' == k then (k, v) :: rest else (k', v') :: alistSetV rest k v

/-- The process-wide state read by `fetchMatchDetail` (src/server/server.js
lines 19-20 and 194-209): the `matchDetailCache` map keyed by
`region:matchId`, the `MATCH_DETAIL_BUDGET` counter, and the remote provider
modelled as an oracle from cache key to the (immutable) match record. -/
structure FetchEnv where
  cache : List (String × MatchDetail) := []
  budget : Int := 0
  remote : String → MatchDetail

/-- `fetchMatchDetail(region, matchId)` from src/server/server.js lines
196-209: cache hit returns without touching the budget; an uncached fetch
first requires `MATCH_DETAIL_BUDGET > 0` (otherwise it throws
`MATCH_DETAIL_BUDGET_EXCEEDED`), then decrements the budget, performs the
remote call (assumed to succeed, via the oracle) and memoizes the result. -/
def fetchMatchDetail (env : FetchEnv) (region matchId : String) :
    Except String (MatchDetail × FetchEnv) :=
  let key := region ++ ":" ++ matchId
  match alistGetV env.cache key with
  | some m => .ok (m, env)
  | none =>
    if env.budget ≤ 0 then .error "MATCH_DETAIL_BUDGET_EXCEEDED"
    else
      let data := env.remote key
      .ok (data, { env with
        budget := env.budget - 1,
        cache := alistSetV env.cache key data })

/-- `REMAKE_MAX_DURATION_SEC = 300` and the remake test
`Number.isFinite(dur) && dur > 0 && dur < REMAKE_MAX_DURATION_SEC`
(src/server/server.js lines 17, 400 and 573-574). -/
def isRemakeDuration (dur : Option Int) : Bool :=
  match dur with
  | some d => decide (0 < d ∧ d < 300)
  | none => false

/-- One row of `byChampion` in a year aggregate. -/
structure ChampRow where
  championId : Int
  count : Nat
  name : String
  icon : Option String := none
deriving Repr, DecidableEq

/-- A per-year aggregation record (`player.champGamesByYear[year]`),
as read and written by `updateChampionOverviewIncremental`
(src/server/server.js lines 501-610). `countsByChampionId` is a JS object
keyed by the decimal string of the champion id. -/
structure YearStats where
  year : Int
  queueId : Option Int := none
  totalGames : Nat := 0
  byChampion : List ChampRow := []
  countsByChampionId : Option (List (String × Nat)) := none
  latestMatchId : Option String := none
  computedAt : Option String := none
  matchCount : Nat := 0
  lastIncrement : Option (Nat × Nat) := none
deriving Repr, DecidableEq

/-- `ensureCountsMap(stats)` from src/server/server.js lines 492-499:
if `countsByChampionId` is absent, build it from `byChampion`
(`map[String(row.championId)] = row.count`). -/
def ensureCountsMap (stats : YearStats) : YearStats :=
  match stats.countsByChampionId with
  | some _ => stats
  | none =>
    let map := stats.byChampion.foldl
      (fun m row => alistSetV m (toString row.championId) row.count) []
    { stats with countsByChampionId := some map }

/-- `stats.countsByChampionId[k] = (stats.countsByChampionId[k] || 0) + 1`
(src/server/server.js line 584). -/
def alistIncr (m : List (String × Nat)) (k : String) : List (String × Nat) :=
  match m with
  | [] => [(k, 1)]
  | (k', v') :: rest =>
    if k' == k then (k', v' + 1) :: rest else (k', v') :: alistIncr rest k

/-- `sum(countsByChampionId.values())`. -/
def alistSum (m : List (String × Nat)) : Nat := (m.map (·.2)).sum

/-- `sum(byChampion[].count)`. -/
def rowsSum (l : List ChampRow) : Nat := (l.map (·.count)).sum

/-- One entry of the Data-Dragon champion catalog as used for display
mapping (`byKey` maps the numeric-string champion key to it). -/
structure Champ where
  key : String
  name : String
  icon : Option String := none
deriving Repr, DecidableEq

/-- The `byChampion` rebuild from src/server/server.js lines 589-601:
project `countsByChampionId` through the catalog and sort descending by
count (`list.sort((a, b) => b.count - a.count)`, a stable sort). -/
def buildByChampion (byKey : String → Option Champ)
    (counts : List (String × Nat)) : List ChampRow :=
  (counts.map (fun kv =>
    let champ := byKey kv.1
    { championId := kv.1.toInt?.getD 0,
      count := kv.2,
      name := (champ.map (·.name)).getD ("Champion " ++ kv.1),
      icon := (champ.bind (·.icon)) : ChampRow })).mergeSort
    (fun a b => b.count ≤ a.count)

/-- The mutable loop state of the delta walk in
`updateChampionOverviewIncremental` (src/server/server.js lines 567-587):
the in-place-updated `countsByChampionId`, `totalGames`, the local `added`
counter, and the fetch environment. -/
structure WalkState where
  counts : List (String × Nat)
  totalGames : Nat
  added : Nat := 0
  env : FetchEnv

/-- Result of the delta walk: `done` for normal completion, `cut` when
`fetchMatchDetail` threw `MATCH_DETAIL_BUDGET_EXCEEDED` mid-walk — the
mutations already applied to the walk state are kept, and the exception
escapes `updateChampionOverviewIncremental` (which has no try/catch). -/
inductive WalkResult where
  | done (w : WalkState)
  | cut (w : WalkState)

/-- The `for (const matchId of newIds)` loop of
`updateChampionOverviewIncremental` (src/server/server.js lines 569-587):
fetch the detail (budget-gated), skip remakes, find the tracked player's
participant entry, skip when the champion id is not a finite number,
otherwise bump `countsByChampionId[String(champId)]`, `totalGames` and
`added`. -/
def walkDelta (puuid region : String) :
    List String → WalkState → WalkResult
  | [], w => .done w
  | matchId :: rest, w =>
    match fetchMatchDetail w.env region matchId with
    | .error _ => .cut w
    | .ok (m, env') =>
      let w' := { w with env := env' }
      if isRemakeDuration m.info.gameDuration then
        walkDelta puuid region rest w'
      else
        match (m.info.participants.find? (fun x => x.puuid == puuid)).bind
            (·.championId) with
        | none => walkDelta puuid region rest w'
        | some champId =>
          walkDelta puuid region rest
            { w' with
              counts := alistIncr w'.counts (toString champId),
              totalGames := w'.totalGames + 1,
              added := w'.added + 1 }

/-- The delta computed by the aggregator (src/server/server.js lines
548-552): walk the fresh listing from the newest end, collecting ids until
the stored cursor is reached (exclusive):
`for (const id of ids) { if (id === stats.latestMatchId) break; newIds.push(id); }`. -/
def deltaIds (cursor : String) (ids : List String) : List String :=
  ids.takeWhile (fun id => id != cursor)

/-- Outcome of one `updateChampionOverviewIncremental` run. `ok` is a normal
return; `budgetCut` means the `MATCH_DETAIL_BUDGET_EXCEEDED` exception
escaped mid-walk — `stats` carries exactly the in-place mutations performed
before the throw (cursor already advanced, counts partially applied,
`byChampion` NOT rebuilt, `computedAt`/`matchCount`/`lastIncrement` NOT
updated). -/
inductive AggResult where
  | ok (stats : YearStats) (env : FetchEnv)
  | budgetCut (stats : YearStats) (env : FetchEnv)

/-- The stats component of an `AggResult` (the state of
`player.champGamesByYear[key]` after the run, normal or aborted). -/
def AggResult.stats : AggResult → YearStats
  | .ok s _ => s
  | .budgetCut s _ => s

/-- The fetch environment after an `AggResult`. -/
def AggResult.fetchEnv : AggResult → FetchEnv
  | .ok _ e => e
  | .budgetCut _ e => e

/-- `updateChampionOverviewIncremental(state, player, year, queueId)` from
src/server/server.js lines 501-610, starting after the single-page fresh id
listing (`ids`, the response to the `start=0&count=100` request of lines
523-536) has been obtained. Mirrors the source step by step: create a fresh
stats record if absent; set `queueId`; `ensureCountsMap`; empty listing →
plain return; no cursor yet → seed the cursor from the listing head and
stamp `computedAt`; otherwise collect `newIds` up to (excluding) the cursor,
advance the cursor to the head unconditionally, walk the delta (budget may
cut it), rebuild `byChampion`, bump `matchCount`, stamp `computedAt` and
record `lastIncrement`. -/
def updateChampionOverviewIncremental (puuid region : String)
    (byKey : String → Option Champ) (stats0 : Option YearStats)
    (year : Int) (queueId : Option Int) (ids : List String) (env : FetchEnv)
    (now : String) : AggResult :=
  let statsA :=
    match stats0 with
    | some s => s
    | none => { year := year, queueId := queueId, totalGames := 0,
                byChampion := [] }
  let statsB := ensureCountsMap { statsA with queueId := queueId }
  match ids with
  | [] => .ok statsB env
  | head :: _ =>
    match statsB.latestMatchId with
    | none =>
      .ok { statsB with latestMatchId := some head, computedAt := some now }
        env
    | some cursor =>
      let newIds := deltaIds cursor ids
      let statsC := { statsB with latestMatchId := some head }
      if newIds.isEmpty then .ok { statsC with computedAt := some now } env
      else
        let counts0 := statsC.countsByChampionId.getD []
        match walkDelta puuid region newIds
            { counts := counts0, totalGames := statsC.totalGames,
              added := 0, env := env } with
        | .cut w =>
          .budgetCut { statsC with
            countsByChampionId := some w.counts,
            totalGames := w.totalGames } w.env
        | .done w =>
          .ok { statsC with
            countsByChampionId := some w.counts,
            totalGames := w.totalGames,
            byChampion := buildByChampion byKey w.counts,
            matchCount := statsC.matchCount + newIds.length,
            computedAt := some now,
            lastIncrement := some (newIds.length, w.added) } w.env

/-- The `startTime/endTime/start/count(/queue)` query built by
`updateChampionOverviewIncremental` for its fresh id listing
(src/server/server.js lines 523-529): a single page request with
`start = "0"` and `count = "100"` (no pagination loop, unlike
`fetchAllMatchIdsForYear`). -/
def incrementalIdsQuery (startTime endTime : Int) (queueId : Option Int) :
    List (String × String) :=
  [("startTime", toString startTime), ("endTime", toString endTime),
   ("start", "0"), ("count", "100")] ++
    (match queueId with
     | some q => [("queue", toString q)]
     | none => [])

/-- One entry of the most-recent-games summary pushed by
`fetchLastNGamesSummary` (src/server/server.js lines 426-438). `time` is
`m.info.gameEndTimestamp` falling back to the current clock
(`new Date(m?.info?.gameEndTimestamp || Date.now())`), kept as epoch
milliseconds. -/
structure GameSummary where
  matchId : String
  time : Int
  win : Bool
  championId : Option Int
  championName : String
  championIcon : Option String
  k : Int
  d : Int
  a : Int
  durationSec : Int
  queueId : Int
deriving Repr, DecidableEq

/-- Result of `fetchLastNGamesSummary`: `done` returns the summary list;
`cut` means `fetchMatchDetail` threw `MATCH_DETAIL_BUDGET_EXCEEDED`, the
exception escapes the function and the partially built local list is lost. -/
inductive Last5Result where
  | done (games : List GameSummary) (env : FetchEnv)
  | cut (env : FetchEnv)

/-- The `for (const matchId of matchIds)` loop of `fetchLastNGamesSummary`
(src/server/server.js lines 393-439): stop once `n` entries are collected,
fetch the detail (budget-gated), skip remakes
(`dur > 0 && dur < REMAKE_MAX_DURATION_SEC`), skip matches without a
participant entry for the tracked player, otherwise push a summary row.
`String(champId)` of an absent champion id is the string `"undefined"`. -/
def last5Go (puuid region : String) (byKey : String → Option Champ)
    (n : Nat) (nowMs : Int) :
    List String → List GameSummary → FetchEnv → Last5Result
  | [], out, env => .done out env
  | matchId :: rest, out, env =>
    if out.length ≥ n then .done out env
    else
      match fetchMatchDetail env region matchId with
      | .error _ => .cut env
      | .ok (m, env') =>
        if isRemakeDuration m.info.gameDuration then
          last5Go puuid region byKey n nowMs rest out env'
        else
          match m.info.participants.find? (fun x => x.puuid == puuid) with
          | none => last5Go puuid region byKey n nowMs rest out env'
          | some me =>
            let champKey :=
              match me.championId with
              | some c => toString c
              | none => "undefined"
            let champ := byKey champKey
            let row : GameSummary :=
              { matchId := matchId,
                time := (m.info.gameEndTimestamp).getD nowMs,
                win := me.win,
                championId := me.championId,
                championName := (champ.map (·.name)).getD
                  ("Champion " ++ champKey),
                championIcon := champ.bind (·.icon),
                k := me.kills,
                d := me.deaths,
                a := me.assists,
                durationSec := (m.info.gameDuration).getD 0,
                queueId := (m.info.queueId).getD 0 }
            last5Go puuid region byKey n nowMs rest (out ++ [row]) env'

/-- `fetchLastNGamesSummary(player, n, queueId)` from src/server/server.js
lines 370-442, starting after the id listing (`matchIds`) has been obtained:
an empty or non-array listing yields `[]`, otherwise the collection loop
runs. -/
def fetchLastNGamesSummary (puuid region : String)
    (byKey : String → Option Champ) (n : Nat) (nowMs : Int)
    (matchIds : List String) (env : FetchEnv) : Last5Result :=
  if matchIds.isEmpty then .done [] env
  else last5Go puuid region byKey n nowMs matchIds [] env

/-- `p.soloWL` — the stored win/loss snapshot; fields may be `null`
(`{ wins: null, losses: null }` is the fallback read). -/
structure SoloWL where
  wins : Option Int := none
  losses : Option Int := none
deriving Repr, DecidableEq

/-- `p.pendingBan` as created in src/server/server.js lines 658-663:
`{ detectedAt, from, to }`. (`from`/`to` are Lean keywords, hence
`fromRank`/`toRank`.) -/
structure PendingBan where
  detectedAt : String
  fromRank : Rank
  toRank : Rank
deriving Repr, DecidableEq

/-- One element of `p.bans` as pushed in src/server/server.js line 841. -/
structure BanRecord where
  time : String
  champion : String
  note : String
deriving Repr, DecidableEq

/-- `p.last5` as written in src/server/server.js line 651. -/
structure Last5Cache where
  computedAt : String
  games : List GameSummary
deriving Repr, DecidableEq

/-- A roster entry of `state.players`, restricted to the properties the
server reads or writes. -/
structure PlayerRec where
  id : String
  displayName : String := ""
  platform : String := ""
  puuid : Option String := none
  currentRank : Option Rank := none
  lastRank : Option Rank := none
  soloWL : Option SoloWL := none
  champGamesByYear : List (String × YearStats) := []
  last5 : Option Last5Cache := none
  pendingBan : Option PendingBan := none
  bans : List BanRecord := []
  lastUpdatedAt : Option String := none
  lastError : Option String := none
  needsCatchup : Bool := false
deriving Repr, DecidableEq

/-- Outcome of the try-body of one roster iteration of `refreshAll`
(src/server/server.js lines 620-664). `err` carries the thrown error
message together with the in-place mutations already applied to the player
and the fetch environment before the throw. -/
inductive StepResult where
  | ok (p : PlayerRec) (env : FetchEnv)
  | err (msg : String) (p : PlayerRec) (env : FetchEnv)

/-- The conditional aggregation + recent-games phase of one roster
iteration (src/server/server.js lines 645-652): when the win+loss total
changed, run the incremental aggregator for (2026, 420) and refetch the
last-5 summary; either may throw `MATCH_DETAIL_BUDGET_EXCEEDED`, and the
error carries the in-place mutations already applied to the player. -/
def refreshStatsPhase (puuid region : String) (byKey : String → Option Champ)
    (aggIds last5Ids : List String) (nowIso : String) (nowMs : Int)
    (totalChanged : Bool) (p : PlayerRec) (env : FetchEnv) :
    Except (String × PlayerRec × FetchEnv) (PlayerRec × FetchEnv) :=
  if totalChanged then
    match updateChampionOverviewIncremental puuid region byKey
        (alistGetV p.champGamesByYear "2026") 2026 (some 420) aggIds env
        nowIso with
    | .budgetCut stats env' =>
      let games2026 := alistSetV p.champGamesByYear "2026" stats
      .error ("MATCH_DETAIL_BUDGET_EXCEEDED",
        { p with champGamesByYear := games2026 }, env')
    | .ok stats env' =>
      let games2026 := alistSetV p.champGamesByYear "2026" stats
      let p := { p with champGamesByYear := games2026 }
      match fetchLastNGamesSummary puuid region byKey 5 nowMs last5Ids
          env' with
      | .cut env'' => .error ("MATCH_DETAIL_BUDGET_EXCEEDED", p, env'')
      | .done games env'' =>
        let cache : Last5Cache := { computedAt := nowIso, games := games }
        .ok ({ p with last5 := some cache }, env'')
  else .ok (p, env)

/-- The try-body of one roster iteration of `refreshAll`
(src/server/server.js lines 620-664), with the remote responses supplied as
parameters: `puuidFetched` (the account lookup used when `p.puuid` is
absent), `newRank` (the `fetchSoloQRank` response), `aggIds` (the
aggregator's fresh single-page id listing) and `last5Ids` (the recent-games
id listing). Mirrors the source order: resolve the puuid; compute
`prevRank = p.currentRank || p.lastRank || {unranked: true}`; compare
win+loss totals; store the new `soloWL`; shift `currentRank` into
`lastRank`; set the new `currentRank`; when the total changed run the
incremental aggregator for (2026, 420) and refetch the last-5 summary (both
may throw `MATCH_DETAIL_BUDGET_EXCEEDED`); stamp `lastUpdatedAt`; finally
run the promotion check and create `pendingBan` only if none exists. -/
def refreshTryBody (puuidFetched : String) (newRank : Rank)
    (aggIds last5Ids : List String) (byKey : String → Option Champ)
    (nowIso : String) (nowMs : Int) (p : PlayerRec) (env : FetchEnv) :
    StepResult :=
  let p := match p.puuid with
    | none => { p with puuid := some puuidFetched }
    | some _ => p
  let puuid := p.puuid.getD ""
  let region := regionalForPlatform p.platform
  let prevRank : Rank :=
    ((p.currentRank).orElse (fun _ => p.lastRank)).getD { unranked := true }
  let prevTotal : Int :=
    match p.soloWL with
    | none => 0
    | some wl => wl.wins.getD 0 + wl.losses.getD 0
  let newTotal : Int := newRank.wins + newRank.losses
  let p := { p with
    soloWL := some { wins := some newRank.wins,
                     losses := some newRank.losses } }
  let p := { p with lastRank := (p.currentRank).orElse (fun _ => p.lastRank) }
  let p := { p with currentRank := some newRank }
  match refreshStatsPhase puuid region byKey aggIds last5Ids nowIso nowMs
      (decide (newTotal ≠ prevTotal)) p env with
  | .error (msg, p, env) => .err msg p env
  | .ok (p, env) =>
    let p := { p with lastUpdatedAt := some nowIso }
    let p :=
      if isPromotion (some prevRank) (some newRank) then
        if p.pendingBan = none then
          { p with pendingBan := some { detectedAt := nowIso,
                                        fromRank := prevRank,
                                        toRank := newRank } }
        else p
      else p
    .ok p env

/-- The catch-handler of the roster loop of `refreshAll`
(src/server/server.js lines 665-672). The clause is `catch (err)` but its
first statement is `const msg = String(e?.message || e);` — the identifier
`e` is not bound anywhere in scope (no enclosing or module-level binding of
`e` exists in server.js), so per JS semantics evaluating `e?.message`
throws `ReferenceError: e is not defined`, and neither branch
(`p.needsCatchup = true` / `p.lastError = msg`) is ever reached. An
exception raised inside a catch-handler escapes the `for` loop. -/
def refreshCatch (msg : String) (p : PlayerRec) : Except String PlayerRec :=
  let _ := msg
  let _ := p
  .error "ReferenceError: e is not defined"

/-- The roster loop of `refreshAll` (src/server/server.js lines 619-673),
with the per-player try-body abstracted as `step` (the fetch environment —
budget and match-detail cache — threads through the whole cycle). A normal
or caught iteration continues with the next player; an error escaping the
catch-handler propagates out of the loop, leaving the remaining players
unprocessed. -/
def refreshLoop (step : PlayerRec → FetchEnv → StepResult) :
    List PlayerRec → FetchEnv → Except String (List PlayerRec × FetchEnv)
  | [], env => .ok ([], env)
  | p :: rest, env =>
    match step p env with
    | .ok p' env' =>
      match refreshLoop step rest env' with
      | .ok (ps, envF) => .ok (p' :: ps, envF)
      | .error m => .error m
    | .err msg p' env' =>
      match refreshCatch msg p' with
      | .ok p'' =>
        match refreshLoop step rest env' with
        | .ok (ps, envF) => .ok (p'' :: ps, envF)
        | .error m => .error m
      | .error m => .error m

/-- `String(s).trim().replace(/\s+/g, " ").toLowerCase()` — the collapse of
a whitespace run to one space (`replace(/\s+/g, " ")`), on the character
list, tracking whether the previous character was part of a run. -/
def collapseWsGo : Bool → List Char → List Char
  | _, [] => []
  | prevWs, c :: rest =>
    if c.isWhitespace then
      (if prevWs then [] else [' ']) ++ collapseWsGo true rest
    else c :: collapseWsGo false rest

/-- The champion-name normalizer `norm` of the ban endpoint
(src/server/server.js line 809):
`(s) => String(s).trim().replace(/\s+/g, " ").toLowerCase()`. -/
def jsNorm (s : String) : String :=
  jsLower (String.mk (collapseWsGo false (jsTrim s).data))

/-- The `promotion` object frozen into a ban-history entry
(src/server/server.js lines 832-838): `{ from, to, detectedAt }`, each
falling back to `null`. -/
structure HistoryPromotion where
  fromRank : Option Rank
  toRank : Option Rank
  detectedAt : Option String
deriving Repr, DecidableEq

/-- One element of `state.banHistory` as built in src/server/server.js
lines 824-839. -/
structure HistoryEntry where
  time : String
  playerId : String
  playerName : String
  champion : String
  note : String
  promotion : Option HistoryPromotion
deriving Repr, DecidableEq

/-- The persisted document (`data.json`): `{ players, banHistory,
globalLastUpdatedAt }`. -/
structure ServerState where
  players : List PlayerRec
  banHistory : List HistoryEntry
  globalLastUpdatedAt : Option String := none
deriving Repr, DecidableEq

/-- The HTTP response of the ban endpoint, by status code. -/
inductive BanResponse where
  | badRequest (error : String)
  | notFound (error : String)
  | conflict (error : String)
  | ok
deriving Repr, DecidableEq

/-- `replaceFirst players pid p'` — the in-place mutation of the player
object located by `state.players.find(...)`: only the first entry with the
matching id is replaced. -/
def replaceFirst (players : List PlayerRec) (pid : String)
    (p' : PlayerRec) : List PlayerRec :=
  match players with
  | [] => []
  | x :: rest =>
    if x.id == pid then p' :: rest else x :: replaceFirst rest pid p'

/-- The `POST /api/ban` handler from src/server/server.js lines 785-850,
given the request body `(playerId, champion, note)` and the clock `time`:
reject a missing playerId/champion (400); reject an unknown player (404);
reject when the player has no `pendingBan` (409); reject when the
normalized champion already occurs in the player's ban list (409) — all
before any mutation; otherwise build the history entry (freezing a copy of
`pendingBan`), push the ban record, clear `pendingBan`, and unshift the
entry onto `banHistory`. Returns the response together with the resulting
state (unchanged on every failure path). -/
def recordBan (state : ServerState) (playerId champion note : String)
    (time : String) : BanResponse × ServerState :=
  let champ := jsTrim champion
  if playerId = "" ∨ champ = "" then
    (.badRequest "playerId und champion sind erforderlich.", state)
  else
    match state.players.find? (fun x => x.id == playerId) with
    | none => (.notFound "Spieler nicht gefunden.", state)
    | some p =>
      match p.pendingBan with
      | none =>
        (.conflict
          "Kein Uprank erkannt. Bans sind nur nach einem Uprank erlaubt.",
          state)
      | some pending =>
        if p.bans.any (fun b => jsNorm b.champion == jsNorm champ) then
          (.conflict "Champion ist für diesen Spieler bereits gebannt.",
            state)
        else
          let promo : HistoryPromotion :=
            { fromRank := some pending.fromRank,
              toRank := some pending.toRank,
              detectedAt := some pending.detectedAt }
          let entry : HistoryEntry :=
            { time := time, playerId := p.id, playerName := p.displayName,
              champion := champ, note := note, promotion := some promo }
          let ban : BanRecord :=
            { time := time, champion := champ, note := note }
          let p' := { p with bans := p.bans ++ [ban], pendingBan := none }
          (.ok,
            { state with
              players := replaceFirst state.players playerId p',
              banHistory := entry :: state.banHistory })

/-- Whether an aggregator run was cut short by budget exhaustion. -/
def AggResult.isCut : AggResult → Bool
  | .budgetCut _ _ => true
  | .ok _ _ => false

/-- The walk state carried by either `WalkResult` constructor. -/
def WalkResult.state : WalkResult → WalkState
  | .done w => w
  | .cut w => w

/-- The ensured `countsByChampionId` of a year aggregate: the stored map if
present, otherwise the map `ensureCountsMap` builds from `byChampion`. -/
def ensuredCounts (s : YearStats) : List (String × Nat) :=
  match s.countsByChampionId with
  | some m => m
  | none =>
    s.byChampion.foldl
      (fun m row => alistSetV m (toString row.championId) row.count) []

/-- An aggregate is count-consistent when `totalGames` agrees with both the
`byChampion` list and the (ensured) counts map. -/
def StatsConsistent (s : YearStats) : Prop :=
  rowsSum s.byChampion = s.totalGames ∧ alistSum (ensuredCounts s) = s.totalGames

/-- The `byChampion` list of the pre-run aggregate (empty when the run
creates the aggregate afresh). -/
def preByChampion : Option YearStats → List ChampRow
  | some s => s.byChampion
  | none => []

/-- The player record carried by either `StepResult` constructor (the
in-place mutations applied to `p` during the iteration, whether or not it
ended in a throw). -/
def StepResult.player : StepResult → PlayerRec
  | .ok p _ => p
  | .err _ p _ => p

/-- Fixture: a match record with the given duration in which player `pu`
played champion `champ`. -/
def testMatch (pu : String) (champ : Int) (dur : Int) : MatchDetail :=
  { info := { gameDuration := some dur,
              participants := [{ puuid := pu, championId := some champ }] } }

/-- Fixture: a remote oracle answering every uncached detail request with a
30-minute match on champion 1 for player "P". -/
def testRemote : String → MatchDetail := fun _ => testMatch "P" 1 1800

/-- Fixture: an empty champion catalog (every lookup falls back to the
"Champion id" display name). -/
def catalogEmpty : String → Option Champ := fun _ => none

/-- Fixture: an aggregate whose cursor is `m0`, with no games counted yet. -/
def cutPreStats : YearStats :=
  { year := 2026, queueId := some 420, totalGames := 0, byChampion := [],
    countsByChampionId := some [], latestMatchId := some "m0" }

/-- Fixture: an aggregator run over a four-id fresh listing with budget 2:
the walk over the three-id delta is cut by the budget on the third fetch. -/
def c2CutRun : AggResult :=
  updateChampionOverviewIncremental "P" "europe" catalogEmpty
    (some cutPreStats) 2026 (some 420) ["m3", "m2", "m1", "m0"]
    { cache := [], budget := 2, remote := testRemote } "T"

/-- Fixture: the environment and expected seed result used to witness the
amended C2 statement on a fresh aggregate. -/
def c2WitnessEnv : FetchEnv := { cache := [], budget := 5, remote := testRemote }

/-- Fixture: the aggregate produced by the cursor-seeding first run on a
fresh aggregate. -/
def c2SeedStats : YearStats :=
  { year := 2026, queueId := some 420, totalGames := 0, byChampion := [],
    countsByChampionId := some [], latestMatchId := some "m1",
    computedAt := some "T" }

/-- Fixture: the C3 scenario run — budget counter 2, a delta of five new
uncached ids (cursor `m0`, fresh listing head `m5`). -/
def c3Run : AggResult :=
  updateChampionOverviewIncremental "P" "europe" catalogEmpty
    (some cutPreStats) 2026 (some 420) ["m5", "m4", "m3", "m2", "m1", "m0"]
    { cache := [], budget := 2, remote := testRemote } "T"

/-- Fixture: an arbitrary roster entry for evaluating the catch handler. -/
def c3Player : PlayerRec := { id := "p1" }

/-- Fixture: the aggregate left by a first seeding run on listing
`["a"]`. -/
def c7Stats1 : YearStats :=
  (updateChampionOverviewIncremental "P" "europe" catalogEmpty none 2026
    (some 420) ["a"] c2WitnessEnv "T1").stats

/-- Fixture: a roster entry whose refresh iteration throws (its recent-games
refetch hits an exhausted budget). -/
def c1Player1 : PlayerRec :=
  { id := "p1", platform := "euw1", puuid := some "P",
    soloWL := some { wins := some 0, losses := some 0 } }

/-- Fixture: a second roster entry behind the failing one. -/
def c1Player2 : PlayerRec :=
  { id := "p2", platform := "euw1", puuid := some "Q",
    soloWL := some { wins := some 0, losses := some 0 } }

/-- Fixture: a rank snapshot whose win/loss total differs from the stored
one, forcing the aggregation + recent-games branch. -/
def c1NewRank : Rank :=
  { tier := "GOLD", division := "IV", lp := 10, wins := 1, losses := 0 }

/-- Fixture: the per-player step with the fixture oracles. -/
def c1Step : PlayerRec → FetchEnv → StepResult :=
  refreshTryBody "PU" c1NewRank ["m1"] ["m1"] catalogEmpty "T" 0

/-- Fixture: a cycle environment whose fetch budget is already exhausted. -/
def c1Env : FetchEnv := { cache := [], budget := 0, remote := testRemote }

/-- Fixture: a SILVER II snapshot at 50 LP. -/
def silver2lp50 : Rank := { tier := "SILVER", division := "II", lp := 50 }

/-- Fixture: a SILVER II snapshot at 60 LP. -/
def silver2lp60 : Rank := { tier := "SILVER", division := "II", lp := 60 }

/-- Fixture: an existing pending promotion. -/
def c5Pb : PendingBan :=
  { detectedAt := "D", fromRank := { tier := "GOLD", division := "IV" },
    toRank := { tier := "GOLD", division := "III" } }

/-- Fixture: a player with a pending promotion and stored totals 3+2. -/
def c5Player : PlayerRec :=
  { id := "p1", platform := "euw1", puuid := some "P",
    soloWL := some { wins := some 3, losses := some 2 },
    currentRank := some { tier := "GOLD", division := "III", lp := 1,
                          wins := 3, losses := 2 },
    pendingBan := some c5Pb }

/-- Fixture: a freshly fetched snapshot that is again a promotion
(GOLD III → DIAMOND IV) with unchanged totals. -/
def c5NewRank : Rank :=
  { tier := "DIAMOND", division := "IV", lp := 0, wins := 3, losses := 2 }

/-- Fixture: an unranked snapshot. -/
def rankUnranked : Rank := { unranked := true }

/-- The player record after a successful ban action: exactly one ban record
appended, `pendingBan` cleared. -/
def bannedPlayer (p : PlayerRec) (champ note time : String) : PlayerRec :=
  { p with bans := p.bans ++ [{ time := time, champion := champ,
                                note := note }],
           pendingBan := none }

/-- The history entry written by a successful ban action, freezing a copy
of the pending promotion. -/
def banEntry (p : PlayerRec) (pending : PendingBan) (champ note time : String) :
    HistoryEntry :=
  { time := time, playerId := p.id, playerName := p.displayName,
    champion := champ, note := note,
    promotion := some { fromRank := some pending.fromRank,
                        toRank := some pending.toRank,
                        detectedAt := some pending.detectedAt } }

/-- Fixture: an existing pending promotion for the ban-action witness. -/
def c6Pending : PendingBan :=
  { detectedAt := "D", fromRank := { tier := "GOLD", division := "IV" },
    toRank := { tier := "GOLD", division := "III" } }

/-- Fixture: a player with a pending promotion and one existing ban. -/
def c6Player : PlayerRec :=
  { id := "p1", displayName := "Alice", pendingBan := some c6Pending,
    bans := [{ time := "t0", champion := "Lee  Sin", note := "" }] }

/-- Fixture: a one-player persisted state. -/
def c6State : ServerState := { players := [c6Player], banHistory := [] }

/-- Fixture: a 200-second (remake) match record for player "P". -/
def c8Match : MatchDetail := testMatch "P" 7 200

/-- Fixture: an environment whose cache already holds the remake match
(budget 0, so the fetch can only succeed from the cache). -/
def c8Env : FetchEnv :=
  { cache := [("europe:mX", c8Match)], budget := 0, remote := testRemote }

/-- The summary list carried by a completed `Last5Result` (`[]` when the
run was cut by the budget). -/
def Last5Result.gamesList : Last5Result → List GameSummary
  | .done games _ => games
  | .cut _ => []

/-- Fixture: a zero-duration match record for player "P" — its duration is
below the 300s threshold but fails the `dur > 0` conjunct of the remake
test. -/
def c8ZeroMatch : MatchDetail := testMatch "P" 7 0

/-- Fixture: an environment whose cache already holds the zero-duration
match (budget 0, so the fetch can only succeed from the cache). -/
def c8ZeroEnv : FetchEnv :=
  { cache := [("europe:mZ", c8ZeroMatch)], budget := 0, remote := testRemote }

theorem ensureCountsMap_eq (s : YearStats) :
    ensureCountsMap s = { s with countsByChampionId := some (ensuredCounts s) } := by
  cases s with
  | mk year queueId totalGames byChampion counts latest computedAt matchCount lastInc =>
    cases counts <;> rfl

theorem ensuredCounts_queueId (s : YearStats) (q : Option Int) :
    ensuredCounts { s with queueId := q } = ensuredCounts s := rfl

theorem ensuredCounts_fields (s : YearStats) (y : Int) (q : Option Int)
    (l ca : Option String) (mc : Nat) (li : Option (Nat × Nat)) :
    ensuredCounts (YearStats.mk y q s.totalGames s.byChampion
      s.countsByChampionId l ca mc li) = ensuredCounts s := by
  cases h : s.countsByChampionId <;> simp [ensuredCounts, h]

theorem alistSum_cons (kv : String × Nat) (m : List (String × Nat)) :
    alistSum (kv :: m) = kv.2 + alistSum m := by
  simp [alistSum]

theorem alistSum_alistIncr (m : List (String × Nat)) (k : String) :
    alistSum (alistIncr m k) = alistSum m + 1 := by
  induction m with
  | nil => simp [alistIncr, alistSum]
  | cons kv rest ih =>
    obtain ⟨k', v'⟩ := kv
    simp only [alistIncr]
    by_cases h : (k' == k) = true
    · rw [if_pos h, alistSum_cons, alistSum_cons]
      omega
    · rw [if_neg h, alistSum_cons, alistSum_cons, ih]
      omega

theorem rowsSum_mergeSort (l : List ChampRow) (le : ChampRow → ChampRow → Bool) :
    rowsSum (l.mergeSort le) = rowsSum l := by
  unfold rowsSum
  exact ((List.mergeSort_perm l le).map (·.count)).sum_eq

theorem rowsSum_buildByChampion (byKey : String → Option Champ)
    (counts : List (String × Nat)) :
    rowsSum (buildByChampion byKey counts) = alistSum counts := by
  unfold buildByChampion
  rw [rowsSum_mergeSort]
  unfold rowsSum alistSum
  rw [List.map_map]
  rfl

theorem walkDelta_sum (puuid region : String) (ids : List String)
    (w : WalkState) :
    alistSum (walkDelta puuid region ids w).state.counts + w.totalGames =
      (walkDelta puuid region ids w).state.totalGames + alistSum w.counts := by
  induction ids generalizing w with
  | nil => simp [walkDelta, WalkResult.state, Nat.add_comm]
  | cons matchId rest ih =>
    simp only [walkDelta]
    cases hf : fetchMatchDetail w.env region matchId with
    | error e => simp [WalkResult.state, Nat.add_comm]
    | ok me =>
      obtain ⟨m, env'⟩ := me
      simp only []
      by_cases hr : isRemakeDuration m.info.gameDuration = true
      · rw [if_pos hr]
        simpa using ih { w with env := env' }
      · rw [if_neg hr]
        cases hc : (m.info.participants.find? (fun x => x.puuid == puuid)).bind
            (fun x => x.championId) with
        | none => simpa using ih { w with env := env' }
        | some champId =>
          have h1 := ih (WalkState.mk (alistIncr w.counts (toString champId))
            (w.totalGames + 1) (w.added + 1) env')
          simp only at h1 ⊢
          rw [alistSum_alistIncr] at h1
          omega

theorem update_consistency (puuid region : String)
    (byKey : String → Option Champ) (stats0 : Option YearStats) (year : Int)
    (queueId : Option Int) (ids : List String) (env : FetchEnv) (now : String)
    (hpre : ∀ s, stats0 = some s → StatsConsistent s) :
    (∀ stats' env',
      updateChampionOverviewIncremental puuid region byKey stats0 year queueId
        ids env now = .ok stats' env' →
      stats'.totalGames = alistSum (stats'.countsByChampionId.getD []) ∧
      stats'.totalGames = rowsSum stats'.byChampion) ∧
    (∀ stats' env',
      updateChampionOverviewIncremental puuid region byKey stats0 year queueId
        ids env now = .budgetCut stats' env' →
      stats'.totalGames = alistSum (stats'.countsByChampionId.getD [])) := by
  cases stats0 with
  | none =>
    cases ids with
    | nil =>
      constructor
      · intro stats' env' h
        simp only [updateChampionOverviewIncremental, ensureCountsMap] at h
        cases h
        simp [alistSum, rowsSum]
      · intro stats' env' h
        simp only [updateChampionOverviewIncremental, ensureCountsMap] at h
        cases h
    | cons head tl =>
      constructor
      · intro stats' env' h
        simp only [updateChampionOverviewIncremental, ensureCountsMap] at h
        cases h
        simp [alistSum, rowsSum]
      · intro stats' env' h
        simp only [updateChampionOverviewIncremental, ensureCountsMap] at h
        cases h
  | some s =>
    obtain ⟨hrows, hcounts⟩ := hpre s rfl
    cases ids with
    | nil =>
      constructor
      · intro stats' env' h
        simp only [updateChampionOverviewIncremental, ensureCountsMap_eq] at h
        cases h
        simp only [ensuredCounts_queueId, Option.getD_some]
        exact ⟨hcounts.symm, hrows.symm⟩
      · intro stats' env' h
        simp only [updateChampionOverviewIncremental, ensureCountsMap_eq] at h
        cases h
    | cons head tl =>
      cases hl : s.latestMatchId with
      | none =>
        constructor
        · intro stats' env' h
          simp only [updateChampionOverviewIncremental, ensureCountsMap_eq,
            hl] at h
          cases h
          simp only [ensuredCounts_queueId, Option.getD_some]
          exact ⟨hcounts.symm, hrows.symm⟩
        · intro stats' env' h
          simp only [updateChampionOverviewIncremental, ensureCountsMap_eq,
            hl] at h
          cases h
      | some cursor =>
        have hsum := walkDelta_sum puuid region (deltaIds cursor (head :: tl))
          (WalkState.mk (ensuredCounts s) s.totalGames 0 env)
        by_cases hni : (deltaIds cursor (head :: tl)).isEmpty = true
        · constructor
          · intro stats' env' h
            simp only [updateChampionOverviewIncremental, ensureCountsMap_eq,
              hl, hni, if_true] at h
            cases h
            simp only [ensuredCounts_queueId, Option.getD_some]
            exact ⟨hcounts.symm, hrows.symm⟩
          · intro stats' env' h
            simp only [updateChampionOverviewIncremental, ensureCountsMap_eq,
              hl, hni, if_true] at h
            cases h
        · cases hw : walkDelta puuid region (deltaIds cursor (head :: tl))
              (WalkState.mk (ensuredCounts s) s.totalGames 0 env) with
          | done w =>
            constructor
            · intro stats' env' h
              simp only [updateChampionOverviewIncremental, ensureCountsMap_eq,
                hl, hni, if_false, Option.getD_some] at h
              rw [ensuredCounts_fields, hw] at h
              cases h
              rw [hw] at hsum
              simp only [WalkResult.state] at hsum
              have hc : alistSum w.counts = w.totalGames := by omega
              refine ⟨?_, ?_⟩
              · simp only [Option.getD_some]
                exact hc.symm
              · simp only []
                rw [rowsSum_buildByChampion, hc]
            · intro stats' env' h
              simp only [updateChampionOverviewIncremental, ensureCountsMap_eq,
                hl, hni, if_false, Option.getD_some] at h
              rw [ensuredCounts_fields, hw] at h
              cases h
          | cut w =>
            constructor
            · intro stats' env' h
              simp only [updateChampionOverviewIncremental, ensureCountsMap_eq,
                hl, hni, if_false, Option.getD_some] at h
              rw [ensuredCounts_fields, hw] at h
              cases h
            · intro stats' env' h
              simp only [updateChampionOverviewIncremental, ensureCountsMap_eq,
                hl, hni, if_false, Option.getD_some] at h
              rw [ensuredCounts_fields, hw] at h
              cases h
              rw [hw] at hsum
              simp only [WalkResult.state] at hsum
              simp only [Option.getD_some]
              omega

theorem update_cut_byChampion (puuid region : String)
    (byKey : String → Option Champ) (stats0 : Option YearStats) (year : Int)
    (queueId : Option Int) (ids : List String) (env : FetchEnv) (now : String) :
    ∀ stats' env',
      updateChampionOverviewIncremental puuid region byKey stats0 year queueId
        ids env now = .budgetCut stats' env' →
      stats'.byChampion = preByChampion stats0 := by
  intro stats' env' h
  cases stats0 with
  | none =>
    cases ids with
    | nil =>
      simp only [updateChampionOverviewIncremental, ensureCountsMap] at h
      cases h
    | cons head tl =>
      simp only [updateChampionOverviewIncremental, ensureCountsMap] at h
      cases h
  | some s =>
    cases ids with
    | nil =>
      simp only [updateChampionOverviewIncremental, ensureCountsMap_eq] at h
      cases h
    | cons head tl =>
      cases hl : s.latestMatchId with
      | none =>
        simp only [updateChampionOverviewIncremental, ensureCountsMap_eq,
          hl] at h
        cases h
      | some cursor =>
        by_cases hni : (deltaIds cursor (head :: tl)).isEmpty = true
        · simp only [updateChampionOverviewIncremental, ensureCountsMap_eq,
            hl, hni, if_true] at h
          cases h
        · simp only [updateChampionOverviewIncremental, ensureCountsMap_eq,
            hl, hni, if_false, Option.getD_some] at h
          rw [ensuredCounts_fields] at h
          cases hw : walkDelta puuid region (deltaIds cursor (head :: tl))
              (WalkState.mk (ensuredCounts s) s.totalGames 0 env) with
          | done w => rw [hw] at h; cases h
          | cut w =>
            rw [hw] at h
            cases h
            rfl


theorem update_cursor_head (puuid region : String)
    (byKey : String → Option Champ) (stats0 : Option YearStats) (year : Int)
    (queueId : Option Int) (head : String) (tl : List String) (env : FetchEnv)
    (now : String) :
    ((updateChampionOverviewIncremental puuid region byKey stats0 year queueId
      (head :: tl) env now).stats).latestMatchId = some head := by
  cases stats0 with
  | none =>
    simp [updateChampionOverviewIncremental, ensureCountsMap, AggResult.stats]
  | some s =>
    cases hl : s.latestMatchId with
    | none =>
      simp [updateChampionOverviewIncremental, ensureCountsMap_eq, hl,
        AggResult.stats]
    | some cursor =>
      by_cases hni : (deltaIds cursor (head :: tl)).isEmpty = true
      · simp [updateChampionOverviewIncremental, ensureCountsMap_eq, hl, hni,
          AggResult.stats]
      · simp only [updateChampionOverviewIncremental, ensureCountsMap_eq, hl,
          hni, if_false, Option.getD_some]
        rw [ensuredCounts_fields]
        cases hw : walkDelta puuid region (deltaIds cursor (head :: tl))
            (WalkState.mk (ensuredCounts s) s.totalGames 0 env) with
        | done w => simp [AggResult.stats]
        | cut w => simp [AggResult.stats]

theorem deltaIds_head (h : String) (tl : List String) :
    deltaIds h (h :: tl) = [] := by
  simp [deltaIds, List.takeWhile_cons]

theorem update_replay (puuid region : String) (byKey : String → Option Champ)
    (stats1 : YearStats) (year : Int) (queueId : Option Int) (h : String)
    (tl : List String) (env : FetchEnv) (now2 : String)
    (hcur : stats1.latestMatchId = some h) :
    updateChampionOverviewIncremental puuid region byKey (some stats1) year
      queueId (h :: tl) env now2 =
    .ok { stats1 with
      queueId := queueId,
      countsByChampionId := some (ensuredCounts stats1),
      latestMatchId := some h, computedAt := some now2 } env := by
  simp only [updateChampionOverviewIncremental, ensureCountsMap_eq, hcur,
    deltaIds_head, List.isEmpty_nil, if_true]
  rw [ensuredCounts_fields]

theorem deltaIds_of_not_mem (cursor : String) :
    ∀ (ids : List String), cursor ∉ ids → deltaIds cursor ids = ids
  | [], _ => rfl
  | a :: rest, h => by
    rw [List.mem_cons, not_or] at h
    obtain ⟨h1, h2⟩ := h
    have ha : (a != cursor) = true := bne_iff_ne.mpr (fun e => h1 e.symm)
    simp only [deltaIds, List.takeWhile_cons, ha, if_true]
    have := deltaIds_of_not_mem cursor rest h2
    simp only [deltaIds] at this
    rw [this]

theorem deltaIds_length_le (cursor : String) (ids : List String) :
    (deltaIds cursor ids).length ≤ ids.length :=
  (List.takeWhile_sublist _).length_le

/-- **C2**, counterexample: a run that ends early on budget exhaustion
leaves `totalGames = 2 = sum(countsByChampionId)` but
`sum(byChampion[].count) = 0` — `byChampion` is not rebuilt when the
`MATCH_DETAIL_BUDGET_EXCEEDED` exception escapes mid-walk, so the three
quantities are NOT all equal after such a run. -/
theorem count_consistency_counterexample :
    c2CutRun.isCut = true ∧
    c2CutRun.stats.totalGames = 2 ∧
    alistSum (c2CutRun.stats.countsByChampionId.getD []) = 2 ∧
    rowsSum c2CutRun.stats.byChampion = 0 :=
  ⟨rfl, rfl, rfl, rfl⟩

/-- **C2**, amended: after a run that returns normally, `totalGames`, the
sum of `countsByChampionId` and the sum of `byChampion[].count` are all
equal (assuming the aggregate was consistent beforehand); after a run cut
short by budget exhaustion, `totalGames` still equals the sum of
`countsByChampionId`, but `byChampion` is not rebuilt and retains its
pre-run contents. -/
theorem count_consistency_amended (puuid region : String)
    (byKey : String → Option Champ) (stats0 : Option YearStats) (year : Int)
    (queueId : Option Int) (ids : List String) (env : FetchEnv) (now : String)
    (hpre : ∀ s, stats0 = some s → StatsConsistent s) :
    (∀ stats' env',
      updateChampionOverviewIncremental puuid region byKey stats0 year queueId
        ids env now = .ok stats' env' →
      stats'.totalGames = alistSum (stats'.countsByChampionId.getD []) ∧
      stats'.totalGames = rowsSum stats'.byChampion) ∧
    (∀ stats' env',
      updateChampionOverviewIncremental puuid region byKey stats0 year queueId
        ids env now = .budgetCut stats' env' →
      stats'.totalGames = alistSum (stats'.countsByChampionId.getD []) ∧
      stats'.byChampion = preByChampion stats0) := by
  obtain ⟨hok, hcut⟩ :=
    update_consistency puuid region byKey stats0 year queueId ids env now hpre
  refine ⟨hok, fun stats' env' h => ⟨hcut stats' env' h, ?_⟩⟩
  exact update_cut_byChampion puuid region byKey stats0 year queueId ids env
    now stats' env' h

/-- Witness for `count_consistency_amended` at a concrete input. -/
theorem count_consistency_amended_witness :
    c2SeedStats.totalGames = alistSum (c2SeedStats.countsByChampionId.getD []) ∧
    c2SeedStats.totalGames = rowsSum c2SeedStats.byChampion :=
  (count_consistency_amended "P" "europe" catalogEmpty none 2026 (some 420)
    ["m1"] c2WitnessEnv "T" (fun _ h => nomatch h)).1 c2SeedStats c2WitnessEnv
    rfl

/-- **C3**: with budget 2 and a delta of five uncached ids the walk is cut
on the third fetch; exactly 2 matches are counted (`totalGames` and the
counts map both reflect them) and the cursor equals the fresh listing's
head `m5`. However the caller-side flagging fails: the roster loop's catch
handler evaluates the unbound identifier `e` and throws
`ReferenceError: e is not defined` instead of reaching
`p.needsCatchup = true`, so the player is never flagged for catch-up and
the budget error aborts the whole refresh. -/
theorem budget_cut_scenario :
    c3Run.isCut = true ∧
    c3Run.stats.totalGames = 2 ∧
    alistSum (c3Run.stats.countsByChampionId.getD []) = 2 ∧
    c3Run.stats.latestMatchId = some "m5" ∧
    refreshCatch "MATCH_DETAIL_BUDGET_EXCEEDED" c3Player =
      Except.error "ReferenceError: e is not defined" ∧
    c3Player.needsCatchup = false :=
  ⟨rfl, rfl, rfl, rfl, rfl, rfl⟩

/-- **C7**: running the aggregator twice in succession, where the second
run's fresh listing has the same head as the cursor left by the first run,
leaves `totalGames`, `byChampion` and the counts map unchanged, is not cut,
and still stamps fresh `computedAt` metadata. -/
theorem replay_no_double_count (puuid region : String)
    (byKey : String → Option Champ) (stats0 : Option YearStats) (year : Int)
    (queueId : Option Int) (ids1 ids2 : List String) (env1 env2 : FetchEnv)
    (now1 now2 : String) (stats1 : YearStats)
    (h1 : stats1 = (updateChampionOverviewIncremental puuid region byKey
      stats0 year queueId ids1 env1 now1).stats)
    (hne : ids1 ≠ [])
    (hsame : ids2.head? = ids1.head?) :
    (updateChampionOverviewIncremental puuid region byKey (some stats1) year
      queueId ids2 env2 now2).isCut = false ∧
    (updateChampionOverviewIncremental puuid region byKey (some stats1) year
      queueId ids2 env2 now2).stats.totalGames = stats1.totalGames ∧
    (updateChampionOverviewIncremental puuid region byKey (some stats1) year
      queueId ids2 env2 now2).stats.byChampion = stats1.byChampion ∧
    (updateChampionOverviewIncremental puuid region byKey (some stats1) year
      queueId ids2 env2 now2).stats.countsByChampionId =
        some (ensuredCounts stats1) ∧
    (updateChampionOverviewIncremental puuid region byKey (some stats1) year
      queueId ids2 env2 now2).stats.computedAt = some now2 := by
  obtain ⟨head1, tl1, rfl⟩ : ∃ a l, ids1 = a :: l := by
    cases ids1 with
    | nil => exact absurd rfl hne
    | cons a l => exact ⟨a, l, rfl⟩
  have hcur : stats1.latestMatchId = some head1 := by
    rw [h1]
    exact update_cursor_head puuid region byKey stats0 year queueId head1 tl1
      env1 now1
  obtain ⟨tl2, rfl⟩ : ∃ l, ids2 = head1 :: l := by
    cases ids2 with
    | nil => simp at hsame
    | cons a l =>
      simp only [List.head?_cons, Option.some.injEq] at hsame
      exact ⟨l, by rw [hsame]⟩
  rw [update_replay puuid region byKey stats1 year queueId head1 tl2 env2 now2
    hcur]
  exact ⟨rfl, rfl, rfl, rfl, rfl⟩

/-- Witness for `replay_no_double_count` at a concrete input. -/
theorem replay_no_double_count_witness :
    (updateChampionOverviewIncremental "P" "europe" catalogEmpty
      (some c7Stats1) 2026 (some 420) ["a", "b"] c2WitnessEnv "T2").isCut =
        false ∧
    (updateChampionOverviewIncremental "P" "europe" catalogEmpty
      (some c7Stats1) 2026 (some 420) ["a", "b"] c2WitnessEnv
      "T2").stats.totalGames = c7Stats1.totalGames ∧
    (updateChampionOverviewIncremental "P" "europe" catalogEmpty
      (some c7Stats1) 2026 (some 420) ["a", "b"] c2WitnessEnv
      "T2").stats.byChampion = c7Stats1.byChampion ∧
    (updateChampionOverviewIncremental "P" "europe" catalogEmpty
      (some c7Stats1) 2026 (some 420) ["a", "b"] c2WitnessEnv
      "T2").stats.countsByChampionId = some (ensuredCounts c7Stats1) ∧
    (updateChampionOverviewIncremental "P" "europe" catalogEmpty
      (some c7Stats1) 2026 (some 420) ["a", "b"] c2WitnessEnv
      "T2").stats.computedAt = some "T2" :=
  replay_no_double_count "P" "europe" catalogEmpty none 2026 (some 420)
    ["a"] ["a", "b"] c2WitnessEnv c2WitnessEnv "T1" "T2" c7Stats1 rfl
    (by decide) rfl

/-- **C1**: the roster loop's catch handler always throws
`ReferenceError: e is not defined` (its body reads the unbound identifier
`e` instead of the caught `err`), so a per-player error is never recorded on
the player and instead escapes the loop: with a two-player roster whose
first iteration throws, the whole loop evaluates to the ReferenceError and
the second player is never refreshed. -/
theorem refresh_loop_error_escapes :
    (∀ msg p, refreshCatch msg p =
      Except.error "ReferenceError: e is not defined") ∧
    refreshLoop c1Step [c1Player1, c1Player2] c1Env =
      Except.error "ReferenceError: e is not defined" :=
  ⟨fun _ _ => rfl, rfl⟩

theorem legacy_lp_tiebreak :
    isPromotionLegacy (some silver2lp50) (some silver2lp60) = true := by
  have h : rankValueLegacy (some silver2lp50) <
      rankValueLegacy (some silver2lp60) := by
    have hu : jsUpper "SILVER" = "SILVER" := rfl
    have hd : jsUpper "II" = "II" := rfl
    have e1 : (("SILVER" : String) = "IRON") = False := eq_false (by decide)
    have e2 : (("SILVER" : String) = "BRONZE") = False := eq_false (by decide)
    have e3 : (("SILVER" : String) = "MASTER") = False := eq_false (by decide)
    have e4 : (("SILVER" : String) = "GRANDMASTER") = False :=
      eq_false (by decide)
    have e5 : (("SILVER" : String) = "CHALLENGER") = False :=
      eq_false (by decide)
    have d1 : (("II" : String) = "IV") = False := eq_false (by decide)
    have d2 : (("II" : String) = "III") = False := eq_false (by decide)
    simp only [rankValueLegacy, silver2lp50, silver2lp60, hu, hd, e1, e2, e3,
      e4, e5, d1, d2, if_false, eq_self_iff_true, if_true, or_self, or_false,
      false_or]
    norm_num
  simp only [isPromotionLegacy, gt_iff_lt, decide_eq_true_eq]
  exact h

/-- **C4**, counterexample: in the legacy comparator of
src/unnamed/part_001 (one of the claim's two cited implementations), two
snapshots with identical tier and identical division but different league
points DO register as a promotion — league points act as a minor score
tiebreaker there, contradicting the claim that league points are never
part of the promotion ordering. -/
theorem promotion_lp_counterexample :
    silver2lp50.tier = silver2lp60.tier ∧
    silver2lp50.division = silver2lp60.division ∧
    isPromotionLegacy (some silver2lp50) (some silver2lp60) = true :=
  ⟨rfl, rfl, legacy_lp_tiebreak⟩

/-- **C4**, amended: the main server's promotion comparison (`rankValue` in
src/server/server.js, the one used by the live refresh loop) is decided by
tier index and then division index, never by league points: equal
tier/division pairs never compare as a promotion whatever the LP, and
SILVER II < SILVER I < GOLD IV and DIAMOND I < MASTER at any LP. The legacy
comparator of src/unnamed/part_001, by contrast, adds capped LP as a minor
tiebreaker, so there an equal-tier/equal-division pair with higher LP does
register as a promotion. -/
theorem promotion_ordering_amended :
    (∀ o n : Rank, o.unranked = false → n.unranked = false →
      jsUpper o.tier = jsUpper n.tier → jsUpper o.division = jsUpper n.division →
      rankValue (some o) (some n) = false) ∧
    (∀ lpa lpb wa wb la lb : Int,
      rankValue (some (Rank.mk false "SILVER" "II" lpa wa la))
        (some (Rank.mk false "SILVER" "I" lpb wb lb)) = true) ∧
    (∀ lpa lpb wa wb la lb : Int,
      rankValue (some (Rank.mk false "SILVER" "I" lpa wa la))
        (some (Rank.mk false "GOLD" "IV" lpb wb lb)) = true) ∧
    (∀ lpa lpb wa wb la lb : Int,
      rankValue (some (Rank.mk false "DIAMOND" "I" lpa wa la))
        (some (Rank.mk false "MASTER" "" lpb wb lb)) = true ∧
      rankValue (some (Rank.mk false "MASTER" "" lpa wa la))
        (some (Rank.mk false "DIAMOND" "I" lpb wb lb)) = false) ∧
    isPromotionLegacy (some silver2lp50) (some silver2lp60) = true := by
  refine ⟨?_, fun _ _ _ _ _ _ => rfl, fun _ _ _ _ _ _ => rfl,
    fun _ _ _ _ _ _ => ⟨rfl, rfl⟩, legacy_lp_tiebreak⟩
  intro o n ho hn ht hd
  simp [rankValue, ho, hn, ht, hd]

/-- Witness for `promotion_ordering_amended` at a concrete input. -/
theorem promotion_ordering_amended_witness :
    rankValue (some silver2lp50) (some silver2lp60) = false :=
  (promotion_ordering_amended).1 silver2lp50 silver2lp60 rfl rfl rfl rfl

theorem rankValue_unranked_left (r : Rank) (n : Option Rank)
    (h : r.unranked = true) : rankValue (some r) n = false := by
  simp [rankValue, h]

theorem rankValue_unranked_right (o : Option Rank) (r : Rank)
    (h : r.unranked = true) : rankValue o (some r) = false := by
  cases o with
  | none => rfl
  | some o' => simp [rankValue, h]

theorem refreshStatsPhase_pendingBan (puuid region : String)
    (byKey : String → Option Champ) (aggIds last5Ids : List String)
    (nowIso : String) (nowMs : Int) (tc : Bool) (p : PlayerRec)
    (env : FetchEnv) :
    (∀ msg p' env', refreshStatsPhase puuid region byKey aggIds last5Ids
        nowIso nowMs tc p env = .error (msg, p', env') →
      p'.pendingBan = p.pendingBan) ∧
    (∀ p' env', refreshStatsPhase puuid region byKey aggIds last5Ids nowIso
        nowMs tc p env = .ok (p', env') → p'.pendingBan = p.pendingBan) := by
  cases tc with
  | false =>
    constructor
    · intro msg p' env' h
      simp only [refreshStatsPhase, Bool.false_eq_true, if_false] at h
      cases h
    · intro p' env' h
      simp only [refreshStatsPhase, Bool.false_eq_true, if_false] at h
      cases h
      rfl
  | true =>
    cases hagg : updateChampionOverviewIncremental puuid region byKey
        (alistGetV p.champGamesByYear "2026") 2026 (some 420) aggIds env
        nowIso with
    | budgetCut stats env' =>
      constructor
      · intro msg p' env'' h
        simp only [refreshStatsPhase, eq_self_iff_true, if_true, hagg] at h
        cases h
        rfl
      · intro p' env'' h
        simp only [refreshStatsPhase, eq_self_iff_true, if_true, hagg] at h
        cases h
    | ok stats env' =>
      cases hl5 : fetchLastNGamesSummary puuid region byKey 5 nowMs last5Ids
          env' with
      | cut env'' =>
        constructor
        · intro msg p' e h
          simp only [refreshStatsPhase, eq_self_iff_true, if_true, hagg,
            hl5] at h
          cases h
          rfl
        · intro p' e h
          simp only [refreshStatsPhase, eq_self_iff_true, if_true, hagg,
            hl5] at h
          cases h
      | done games env'' =>
        constructor
        · intro msg p' e h
          simp only [refreshStatsPhase, eq_self_iff_true, if_true, hagg,
            hl5] at h
          cases h
        · intro p' e h
          simp only [refreshStatsPhase, eq_self_iff_true, if_true, hagg,
            hl5] at h
          cases h
          rfl

/-- **C5**: one refresh iteration over a player who already has a pending
promotion leaves that `pendingBan` record exactly as it was — whether the
iteration completes normally or throws — so a second detected promotion is
silently dropped and a refresh cycle never clears a pending promotion. -/
theorem pending_promotion_singleton (puuidFetched : String) (newRank : Rank)
    (aggIds last5Ids : List String) (byKey : String → Option Champ)
    (nowIso : String) (nowMs : Int) (p : PlayerRec) (env : FetchEnv)
    (pb : PendingBan) (hpb : p.pendingBan = some pb) :
    (refreshTryBody puuidFetched newRank aggIds last5Ids byKey nowIso nowMs p
      env).player.pendingBan = some pb := by
  cases hpu : p.puuid with
  | none =>
    simp only [refreshTryBody, hpu]
    split
    · rename_i msg p' env' heq
      have h1 := (refreshStatsPhase_pendingBan _ _ _ _ _ _ _ _ _ _).1 msg p'
        env' heq
      simp only at h1
      simp [StepResult.player, h1, hpb]
    · rename_i p' env' heq
      have h1 := (refreshStatsPhase_pendingBan _ _ _ _ _ _ _ _ _ _).2 p'
        env' heq
      simp only at h1
      simp [StepResult.player, h1, hpb]
  | some pu =>
    simp only [refreshTryBody, hpu]
    split
    · rename_i msg p' env' heq
      have h1 := (refreshStatsPhase_pendingBan _ _ _ _ _ _ _ _ _ _).1 msg p'
        env' heq
      simp only at h1
      simp [StepResult.player, h1, hpb]
    · rename_i p' env' heq
      have h1 := (refreshStatsPhase_pendingBan _ _ _ _ _ _ _ _ _ _).2 p'
        env' heq
      simp only at h1
      simp [StepResult.player, h1, hpb]

/-- Witness for `pending_promotion_singleton` at a concrete input. -/
theorem pending_promotion_singleton_witness :
    (refreshTryBody "PU" c5NewRank [] [] catalogEmpty "T" 0 c5Player
      c2WitnessEnv).player.pendingBan = some c5Pb :=
  pending_promotion_singleton "PU" c5NewRank [] [] catalogEmpty "T" 0
    c5Player c2WitnessEnv c5Pb rfl

/-- **C10**: whenever either snapshot of a promotion comparison is unranked
or missing, the detector reports no promotion; consequently a refresh
iteration whose fetched snapshot is unranked (or whose effective previous
snapshot is unranked) never creates a pending promotion. -/
theorem unranked_never_promotes :
    (∀ n, isPromotion none n = false) ∧
    (∀ r n, r.unranked = true → isPromotion (some r) n = false) ∧
    (∀ o, isPromotion o none = false) ∧
    (∀ o r, r.unranked = true → isPromotion o (some r) = false) ∧
    (∀ puuidFetched newRank aggIds last5Ids byKey nowIso nowMs p env,
      newRank.unranked = true →
      (refreshTryBody puuidFetched newRank aggIds last5Ids byKey nowIso nowMs
        p env).player.pendingBan = p.pendingBan) := by
  refine ⟨fun n => rfl, ?_, ?_, ?_, ?_⟩
  · intro r n h
    exact rankValue_unranked_left r n h
  · intro o
    cases o with
    | none => rfl
    | some o' => simp [isPromotion, rankValue]
  · intro o r h
    exact rankValue_unranked_right o r h
  · intro puuidFetched newRank aggIds last5Ids byKey nowIso nowMs p env hnew
    have hpr : ∀ o, isPromotion o (some newRank) = false := fun o =>
      rankValue_unranked_right o newRank hnew
    cases hpu : p.puuid with
    | none =>
      simp only [refreshTryBody, hpu]
      split
      · rename_i msg p' env' heq
        have h1 := (refreshStatsPhase_pendingBan _ _ _ _ _ _ _ _ _ _).1 msg
          p' env' heq
        simp only at h1
        simp [StepResult.player, h1, hpr]
      · rename_i p' env' heq
        have h1 := (refreshStatsPhase_pendingBan _ _ _ _ _ _ _ _ _ _).2 p'
          env' heq
        simp only at h1
        simp [StepResult.player, h1, hpr]
    | some pu =>
      simp only [refreshTryBody, hpu]
      split
      · rename_i msg p' env' heq
        have h1 := (refreshStatsPhase_pendingBan _ _ _ _ _ _ _ _ _ _).1 msg
          p' env' heq
        simp only at h1
        simp [StepResult.player, h1, hpr]
      · rename_i p' env' heq
        have h1 := (refreshStatsPhase_pendingBan _ _ _ _ _ _ _ _ _ _).2 p'
          env' heq
        simp only at h1
        simp [StepResult.player, h1, hpr]

/-- Witness for `unranked_never_promotes` at a concrete input. -/
theorem unranked_never_promotes_witness :
    isPromotion (some rankUnranked) (some c5NewRank) = false ∧
    isPromotion (some c5NewRank) (some rankUnranked) = false :=
  ⟨(unranked_never_promotes).2.1 rankUnranked (some c5NewRank) rfl,
   (unranked_never_promotes).2.2.2.1 (some c5NewRank) rankUnranked rfl⟩

/-- **C6**: the ban action is rejected (and the state left untouched) when
the player has no pending promotion, and when the champion already occurs
in the player's ban list under trim/whitespace-collapse/lowercase
normalization; on success it appends exactly one ban record to the
player's list, prepends one history entry freezing the pending promotion's
`from`/`to`/`detectedAt`, and clears `pendingBan`. -/
theorem ban_action_guards (state : ServerState)
    (playerId champion note time : String) (p : PlayerRec)
    (hfind : state.players.find? (fun x => x.id == playerId) = some p)
    (hpid : ¬playerId = "") (hch : ¬jsTrim champion = "") :
    (p.pendingBan = none →
      recordBan state playerId champion note time =
        (.conflict
          "Kein Uprank erkannt. Bans sind nur nach einem Uprank erlaubt.",
          state)) ∧
    (∀ pending, p.pendingBan = some pending →
      ((p.bans.any fun b => jsNorm b.champion == jsNorm (jsTrim champion)) =
          true →
        recordBan state playerId champion note time =
          (.conflict "Champion ist für diesen Spieler bereits gebannt.",
            state)) ∧
      ((p.bans.any fun b => jsNorm b.champion == jsNorm (jsTrim champion)) =
          false →
        recordBan state playerId champion note time =
          (.ok, ServerState.mk
            (replaceFirst state.players playerId
              (bannedPlayer p (jsTrim champion) note time))
            (banEntry p pending (jsTrim champion) note time ::
              state.banHistory)
            state.globalLastUpdatedAt))) := by
  have hcond : ¬(playerId = "" ∨ jsTrim champion = "") := by
    rintro (h | h)
    exacts [hpid h, hch h]
  constructor
  · intro hpb
    simp only [recordBan, if_neg hcond, hfind, hpb]
  · intro pending hpb
    constructor
    · intro hdup
      simp only [recordBan, if_neg hcond, hfind, hpb, hdup, if_true]
    · intro hdup
      simp only [recordBan, if_neg hcond, hfind, hpb, hdup,
        Bool.false_eq_true, if_false, bannedPlayer, banEntry]

/-- Witness for `ban_action_guards` at a concrete input: re-banning
`"  lee sin "` against the stored `"Lee  Sin"` is rejected by the
normalization guard and mutates nothing. -/
theorem ban_action_guards_witness :
    recordBan c6State "p1" "  lee sin " "x" "t1" =
      (.conflict "Champion ist für diesen Spieler bereits gebannt.",
        c6State) :=
  ((ban_action_guards c6State "p1" "  lee sin " "x" "t1" c6Player rfl
    (by decide) (by decide)).2 c6Pending rfl).1 (by decide)

/-- **C8**, counterexample: the remake test of the source is
`Number.isFinite(dur) && dur > 0 && dur < 300`, so a fetched match record
with duration 0 — below the 300-second threshold — is NOT treated as a
non-game: the aggregator's delta walk counts it into `countsByChampionId`
and `totalGames`, and the recent-games loop includes it in the summary,
refuting the claim's universal "every duration below the threshold". -/
theorem remake_zero_counterexample :
    (0 : Int) < 300 ∧
    c8ZeroMatch.info.gameDuration = some 0 ∧
    isRemakeDuration c8ZeroMatch.info.gameDuration = false ∧
    (walkDelta "P" "europe" ["mZ"]
      (WalkState.mk [] 0 0 c8ZeroEnv)).state.totalGames = 1 ∧
    (walkDelta "P" "europe" ["mZ"]
      (WalkState.mk [] 0 0 c8ZeroEnv)).state.counts = [("7", 1)] ∧
    ((last5Go "P" "europe" catalogEmpty 5 0 ["mZ"] [] c8ZeroEnv).gamesList.map
      (fun g => g.matchId)) = ["mZ"] :=
  ⟨by decide, rfl, rfl, rfl, rfl, rfl⟩

/-- **C8**, amended: every fetched match record whose duration is strictly
positive and below the 300-second remake threshold is treated as a
non-game: the aggregator's delta walk continues with `countsByChampionId`,
`totalGames` and `added` exactly unchanged, and the recent-games loop
continues with the summary list exactly unchanged. (A record whose
duration is 0 or negative, although below the threshold, fails the
`dur > 0` conjunct of the source's test and is counted.) -/
theorem remake_excluded (puuid region matchId : String)
    (byKey : String → Option Champ) (rest restG : List String)
    (counts : List (String × Nat)) (total added : Nat) (env env' : FetchEnv)
    (m : MatchDetail) (d : Int) (n : Nat) (nowMs : Int)
    (out : List GameSummary)
    (hf : fetchMatchDetail env region matchId = .ok (m, env'))
    (hdur : m.info.gameDuration = some d) (h0 : 0 < d) (h300 : d < 300)
    (hlt : out.length < n) :
    isRemakeDuration m.info.gameDuration = true ∧
    walkDelta puuid region (matchId :: rest)
      (WalkState.mk counts total added env) =
      walkDelta puuid region rest (WalkState.mk counts total added env') ∧
    last5Go puuid region byKey n nowMs (matchId :: restG) out env =
      last5Go puuid region byKey n nowMs restG out env' := by
  have hrem : isRemakeDuration m.info.gameDuration = true := by
    rw [hdur]
    simp only [isRemakeDuration, decide_eq_true_eq]
    exact ⟨h0, h300⟩
  refine ⟨hrem, ?_, ?_⟩
  · simp only [walkDelta, hf]
    simp only [hrem, if_true]
  · simp only [last5Go]
    rw [if_neg (Nat.not_le.mpr hlt)]
    simp only [hf, hrem, if_true]

/-- Witness for `remake_excluded` at a concrete input (the claim's
particular 200-second instance). -/
theorem remake_excluded_witness :
    isRemakeDuration c8Match.info.gameDuration = true ∧
    walkDelta "P" "europe" ["mX"] (WalkState.mk [] 0 0 c8Env) =
      walkDelta "P" "europe" [] (WalkState.mk [] 0 0 c8Env) ∧
    last5Go "P" "europe" catalogEmpty 5 0 ["mX"] [] c8Env =
      last5Go "P" "europe" catalogEmpty 5 0 [] [] c8Env :=
  remake_excluded "P" "europe" "mX" catalogEmpty [] [] [] 0 0 c8Env c8Env
    c8Match 200 5 0 [] rfl rfl (by decide) (by decide) (by decide)

/-- **C9**: the fresh listing consulted by the incremental aggregator is a
single page requested with `start = "0"` and `count = "100"`; when the
stored cursor does not occur anywhere in that page the delta is the entire
page, and the delta is never longer than the page (hence at most 100 ids
when the provider honours the count). -/
theorem single_page_delta (startTime endTime : Int) (queueId : Option Int)
    (cursor : String) (ids : List String)
    (hnotin : cursor ∉ ids) (hlen : ids.length ≤ 100) :
    alistGetV (incrementalIdsQuery startTime endTime queueId) "start" =
      some "0" ∧
    alistGetV (incrementalIdsQuery startTime endTime queueId) "count" =
      some "100" ∧
    deltaIds cursor ids = ids ∧
    (deltaIds cursor ids).length ≤ 100 ∧
    (∀ x ∈ deltaIds cursor ids, x ∈ ids) := by
  refine ⟨rfl, rfl, deltaIds_of_not_mem cursor ids hnotin,
    le_trans (deltaIds_length_le cursor ids) hlen, ?_⟩
  intro x hx
  exact (List.takeWhile_sublist _).subset hx

/-- Witness for `single_page_delta` at a concrete input. -/
theorem single_page_delta_witness :
    alistGetV (incrementalIdsQuery 0 10 (some 420)) "start" = some "0" ∧
    deltaIds "zz" ["a", "b"] = ["a", "b"] ∧
    (deltaIds "zz" ["a", "b"]).length ≤ 100 :=
  have h := single_page_delta 0 10 (some 420) "zz" ["a", "b"] (by decide)
    (by decide)
  ⟨h.1, h.2.2.1, h.2.2.2.1⟩

end Lol
